import Mathlib

/-!
Verification development for a loader/query object over the IMF World Economic
Outlook tabular dataset (`weo.py`).  The Python module is shallowly embedded:

* pandas cells are `Cell` (a string, a finite number, or a missing value);
* Python `float()` on strings is `pyFloat`, returning `none` for `ValueError`
  and otherwise a `PyFloat` (a rational, an infinity, or `nan`);
* the raw pandas frame is `WEO`: a list of rows carrying the five metadata
  columns as named fields, plus the remaining (year) columns as an aligned
  cell list.  A missing value is modelled only for the `Country` column,
  the one column the code tests for missingness;
* raising is modelled with `Except WeoError`.
-/

/-- Result of Python float coercion: a finite value (decimal strings are exact
rationals), a signed infinity, or `nan` (which also serves as the `np.nan`
missing-value marker). -/
inductive PyFloat where
  | finite (q : ℚ)
  | inf (negative : Bool)
  | nan
deriving DecidableEq, Repr

/-- Characters stripped by Python `float(str)` around the payload.  (The model
covers the ASCII whitespace repertoire.) -/
def pyIsSpace (c : Char) : Bool :=
  c == ' ' || c == '\t' || c == '\n' || c == '\r' || c == '\x0b' || c == '\x0c'

/-- Output of scanning a run of decimal digits: accumulated value, number of
digits consumed, and the remaining characters. -/
structure DigitsOut where
  val : Nat
  count : Nat
  rest : List Char
deriving DecidableEq, Repr

/-- Scan a run of decimal digits, allowing a single underscore between two
digits (Python numeric-literal rule).  An ill-placed underscore stops the
scan, leaving it in `rest` so the caller rejects the trailing junk. -/
def takeDigits : List Char → Nat → Nat → DigitsOut
  | [], acc, n => ⟨acc, n, []⟩
  | c :: cs, acc, n =>
    if c.isDigit then takeDigits cs (10 * acc + (c.toNat - 48)) (n + 1)
    else if c == '_' && decide (0 < n) && (match cs with | d :: _ => d.isDigit | [] => false) then
      takeDigits cs acc n
    else ⟨acc, n, c :: cs⟩

/-- Parse the decimal-number part of a Python float literal
(`digits [. digits] [(e|E) [sign] digits]`, each digit run possibly with
underscores); `none` models `ValueError`.  The value is assembled from the
scanned digits by integer arithmetic and one `mkRat`, which is exact for
decimal literals; `neg` is the sign taken off the front by the caller. -/
def parseDecimal (neg : Bool) (cs : List Char) : Option ℚ :=
  let ipart := takeDigits cs 0 0
  let fpart :=
    match ipart.rest with
    | '.' :: r => takeDigits r 0 0
    | _ => ⟨0, 0, ipart.rest⟩
  if ipart.count + fpart.count = 0 then none
  else
    let base : Nat := ipart.val * 10 ^ fpart.count + fpart.val
    let sbase : ℤ := if neg then -(base : ℤ) else (base : ℤ)
    match fpart.rest with
    | [] => some (mkRat sbase (10 ^ fpart.count))
    | e :: r =>
      if e = 'e' ∨ e = 'E' then
        let se : Bool × List Char :=
          match r with
          | '+' :: r2 => (false, r2)
          | '-' :: r2 => (true, r2)
          | r2 => (false, r2)
        let epart := takeDigits se.2 0 0
        if 0 < epart.count ∧ epart.rest = [] then
          some (if se.1 then mkRat sbase (10 ^ fpart.count * 10 ^ epart.val)
                else mkRat (sbase * 10 ^ epart.val) (10 ^ fpart.count))
        else none
      else none

/-- ASCII lower-casing of one character, as Python `str.lower` acts on the
ASCII repertoire; characters outside `A`-`Z` are left unchanged (sufficient
for the characters exercised here; in particular, like Python, it leaves
`'ß'` unchanged). -/
def pyLowerChar (c : Char) : Char :=
  if 65 ≤ c.toNat ∧ c.toNat ≤ 90 then Char.ofNat (c.toNat + 32) else c

/-- Model of Python `str.lower` (per-character, see `pyLowerChar`). -/
def pyLower (s : String) : String :=
  String.mk (s.toList.map pyLowerChar)

/-- Upper-casing of one character as Python `str.upper` acts on the ASCII
repertoire plus `'ß'`, whose uppercase form is the two-character string
`"SS"`; other characters are left unchanged. -/
def pyUpperChar (c : Char) : List Char :=
  if 97 ≤ c.toNat ∧ c.toNat ≤ 122 then [Char.ofNat (c.toNat - 32)]
  else if c = 'ß' then ['S', 'S']
  else [c]

/-- Model of Python `str.upper` (per-character, see `pyUpperChar`). -/
def pyUpper (s : String) : String :=
  String.mk (s.toList.flatMap pyUpperChar)

/-- Model of Python `float` applied to a string: strip surrounding whitespace,
take an optional sign, then either an infinity/nan literal (case-insensitive)
or a decimal literal.  `none` models `ValueError`. -/
def pyFloat (s : String) : Option PyFloat :=
  let cs := (((s.toList).dropWhile pyIsSpace).reverse.dropWhile pyIsSpace).reverse
  match cs with
  | [] => none
  | _ :: _ =>
    let sgn : Bool × List Char :=
      match cs with
      | '+' :: r => (false, r)
      | '-' :: r => (true, r)
      | r => (false, r)
    let low := sgn.2.map pyLowerChar
    if low = ['i', 'n', 'f'] ∨ low = "infinity".toList then some (.inf sgn.1)
    else if low = ['n', 'a', 'n'] then some .nan
    else
      match parseDecimal sgn.1 sgn.2 with
      | some q => some (.finite q)
      | none => none

/-- A cell of the loaded frame: the year columns of the tab-separated WEO file
hold numeric-looking strings, plain numbers, or missing values (`NaN`). -/
inductive Cell where
  | str (s : String)
  | num (q : ℚ)
  | na
deriving DecidableEq, Repr

/-- Remove every comma from a string (`x.replace(",", "")`). -/
def stripCommas (s : String) : String :=
  String.mk (s.toList.filter (fun c => ¬ c = ','))

/-- Embedding of `convert` (weo.py lines 12-18): strings containing a comma
have every comma removed, then `float` is attempted; a `ValueError` becomes
`np.nan`.  Non-string cells are floats already (`float` of a float, and
`float(nan) = nan`). -/
def convert (x : Cell) : PyFloat :=
  match x with
  | .str s =>
    let s1 := if s.toList.contains ',' then stripCommas s else s
    match pyFloat s1 with
    | some v => v
    | none => PyFloat.nan
  | .num q => PyFloat.finite q
  | .na => PyFloat.nan

example : pyFloat "1234.5" = some (.finite (mkRat 2469 2)) := by decide
example : pyFloat "n/a" = none := by decide
example : convert (.str "1,234.5") = .finite (mkRat 2469 2) := by decide
example : convert (.str "1,2,3") = .finite 123 := by decide
example : pyFloat "-2e3" = some (.finite (-2000 : ℤ)) := by decide
example : pyFloat " inf " = some (.inf false) := by decide
example : pyFloat "1_0.2_5" = some (.finite (mkRat 41 4)) := by decide
example : pyFloat "1_" = none := by decide
example : pyFloat "_1" = none := by decide
example : pyFloat "1.2.3" = none := by decide
example : pyFloat "" = none := by decide
example : (mkRat 2469 2 : ℚ) = 1234.5 := by norm_num [Rat.mkRat_eq_div]
example : pyLower "Großbritannien" = "großbritannien" := by decide
example : pyUpper "ß" = "SS" := by decide
example : pyLower (pyUpper "UNITED") = "united" := by decide

/-! ## The raw table -/

/-- The latest year constant (weo.py line 9). -/
def LATEST_YEAR : Nat := 2024

/-- One row of the raw frame read from the tab-separated source.  The five
metadata columns are named fields; `cells` holds the remaining columns,
aligned position-by-position with `WEO.columns`.  Only `country` is modelled
as possibly missing: the footer/disclaimer rows of the WEO file leave
`Country` blank, and that is the one column the code tests with `isna`. -/
structure Row where
  countryCode : String
  iso : String
  country : Option String
  subject : String
  unitsCol : String
  cells : List Cell
deriving DecidableEq, Repr

/-- A row of the `countries_df` projection: the three identifying columns
`WEO Country Code`, `ISO`, `Country`. -/
structure CountryRow where
  countryCode : String
  iso : String
  country : Option String
deriving DecidableEq, Repr

/-- The loaded raw frame (`self._df`): the non-metadata column headers in
source order plus the rows. -/
structure WEO where
  columns : List String
  rows : List Row
deriving DecidableEq, Repr

deriving instance DecidableEq for Except

/-- Python exceptions raised by the embedded operations. -/
inductive WeoError where
  /-- The `ValueError` from `get`: the requested unit is not among the units
  observed for the requested subject; carries the valid units and the
  offending request, as the message interpolates both. -/
  | invalidUnit (validUnits : List String) (provided : String)
  /-- The `ValueError` from assigning a 45-entry date index to a frame whose row
  count differs. -/
  | lengthMismatch (actual expected : Nat)
  /-- The `IndexError` from a positional `.iloc[0]` on an empty frame. -/
  | indexOutOfBounds
  /-- The `AttributeError` from calling `.lower()` on a missing (`NaN`) country
  cell inside `find_countries`. -/
  | attributeError
  /-- The `KeyError` from indexing a frame with a label that matches nothing. -/
  | keyError (k : String)
deriving DecidableEq, Repr

/-- Result of `get`: a table indexed by the years 1980..`LATEST_YEAR` (the
row labels are year-end dates; the model keeps the year number), one column
per ISO code, `values` row-major (one inner list per year). -/
structure Series where
  index : List Nat
  columns : List String
  values : List (List PyFloat)
deriving DecidableEq, Repr

/-- Keep the first occurrence of each element, dropping later duplicates
(the behaviour of pandas `unique()` / `drop_duplicates()`); `seen` holds the
elements already emitted. -/
def dedupAux [DecidableEq α] : List α → List α → List α
  | [], _ => []
  | x :: xs, seen => if x ∈ seen then dedupAux xs seen else x :: dedupAux xs (x :: seen)

/-- First-occurrence deduplication (pandas `unique()` / `drop_duplicates`). -/
def dedupFirst [DecidableEq α] (xs : List α) : List α :=
  dedupAux xs []

/-- Python `str.isdigit`: non-empty and all digits (ASCII repertoire). -/
def pyIsDigit (s : String) : Bool :=
  !s.isEmpty && s.toList.all Char.isDigit

/-- Bool test for `needle in haystack` on Python strings: contiguous
substring. -/
def strHasSub (need : List Char) : List Char → Bool
  | [] => need.isEmpty
  | c :: t => List.isPrefixOf need (c :: t) || strHasSub need t

namespace WEO

/-- Embedding of `self.years` (weo.py lines 46-48): the all-digit column headers, in
source order.  (The five metadata headers of the Python frame are carried as
named `Row` fields here; none of them is all-digit, so filtering the
remaining headers is the same selection.) -/
def years (w : WEO) : List String :=
  w.columns.filter pyIsDigit

/-- Embedding of `self.df` (weo.py lines 50-53): the raw rows minus those whose `Country`
cell is missing. -/
def df (w : WEO) : List Row :=
  w.rows.filter (fun r => r.country.isSome)

/-- Embedding of `self.countries_df` (weo.py lines 55-58): project the RAW frame
(`self._df`, not the filtered `self.df`) onto the three country columns and
drop exact duplicates, first occurrence kept. -/
def countries_df (w : WEO) : List CountryRow :=
  dedupFirst (w.rows.map (fun r => ⟨r.countryCode, r.iso, r.country⟩))

/-- Embedding of `variables()` (weo.py lines 60-61): unique subject descriptors of the
filtered frame, order of first appearance.  (`variables` is a reserved word
in Lean, hence the guillemets.) -/
def «variables» (w : WEO) : List String :=
  dedupFirst (w.df.map (fun r => r.subject))

/-- The duck-typed `subjects` argument of `by_subject`: one name or a
collection of names. -/
inductive Subjects where
  | one (s : String)
  | many (l : List String)

/-- The singleton-set treatment of a plain string argument
(`if isinstance(subjects, str): subjects = [subjects]`). -/
def subjectsList : Subjects → List String
  | .one s => [s]
  | .many l => l

/-- Embedding of `by_subject(subjects)` (weo.py lines 63-68): rows of the filtered frame
whose subject descriptor is in the requested set. -/
def by_subject (w : WEO) (subjects : Subjects) : List Row :=
  w.df.filter (fun r => r.subject ∈ subjectsList subjects)

/-- Unique units of a row set (`_df['Units'].unique()`). -/
def unitsOf (rows : List Row) : List String :=
  dedupFirst (rows.map (fun r => r.unitsCol))

/-- Embedding of `units(subject=None)` (weo.py lines 70-72).  The argument is tested for
truthiness, so `None` and the empty string both select the whole filtered
frame. -/
def units (w : WEO) (subject : Option String) : List String :=
  match subject with
  | some s => if s.isEmpty then unitsOf w.df else unitsOf (w.by_subject (.one s))
  | none => unitsOf w.df

/-- Row-wise projection onto the year columns (`_df[self.years]`): the cells
whose column header is all-digit, in header order. -/
def yearCells (w : WEO) (r : Row) : List Cell :=
  ((w.columns.zip r.cells).filter (fun p => pyIsDigit p.1)).map (fun p => p.2)

/-- Embedding of `get(subject, unit)` (weo.py lines 74-86):
1. filter to the subject; 2. if `unit` is not among the units of that subset
raise `ValueError` listing the valid units; 3. filter to the unit; 4. select
the year columns plus ISO and pivot (ISO codes become columns, years become
rows); 5. relabel the rows with the 45 year-end dates 1980..2024 — pandas
raises if the frame does not have exactly 45 rows; 6. coerce every cell with
`convert`. -/
def get (w : WEO) (subject unit : String) : Except WeoError Series :=
  let sub := w.by_subject (.one subject)
  let us := unitsOf sub
  if unit ∉ us then .error (.invalidUnit us unit)
  else
    let sub2 := sub.filter (fun r => r.unitsCol == unit)
    let ny := w.years.length
    if ny = LATEST_YEAR - 1980 + 1 then
      .ok { index := (List.range (LATEST_YEAR - 1980 + 1)).map (fun k => 1980 + k),
            columns := sub2.map (fun r => r.iso),
            values := (List.range ny).map
              (fun i => sub2.map (fun r => convert ((w.yearCells r).getD i Cell.na))) }
    else .error (.lengthMismatch ny (LATEST_YEAR - 1980 + 1))

/-- Embedding of `find_countries(name)` (weo.py lines 88-93): case-insensitive substring
match of `name` against the `Country` column of `countries_df`.  The lambda
`c in x.lower()` hits an `AttributeError` as soon as a missing country cell
is applied, so a raw table containing one fails the whole call. -/
def find_countries (w : WEO) (name : String) : Except WeoError (List CountryRow) :=
  let c := pyLower name
  if w.countries_df.all (fun r => r.country.isSome) then
    .ok (w.countries_df.filter
      (fun r => strHasSub c.toList (pyLower (r.country.getD "")).toList))
  else .error .attributeError

/-- Embedding of `iso_code(country)` (weo.py lines 95-97): first match of
`find_countries`, taken with positional `.iloc[0]`, which raises
`IndexError` when there is no match. -/
def iso_code (w : WEO) (country : String) : Except WeoError String :=
  match w.find_countries country with
  | .error e => .error e
  | .ok [] => .error .indexOutOfBounds
  | .ok (r :: _) => .ok r.iso

end WEO

/-! ## `sort_values(ascending=False)`

pandas sorts a Series by removing the missing entries, arg-sorting the rest
ascending with numpy's default `kind='quicksort'`, reversing that
permutation for a descending sort, and appending the missing entries at the
end (`na_position='last'`).  numpy's quicksort is documented as unstable,
so the library fixes the result only up to the relative order of equal
values: guaranteed are the multiset of entries, the descending order of the
non-missing values, and the missing entries last.  An executable model must
pick some concrete order for equal values; the model below uses a reversed
stable insertion sort, which coincides with numpy in its small-array
insertion-sort regime (partitions of at most 16 elements, in particular
every input evaluated in this file) but is a refinement choice beyond that.
The theorems proved about it assert only the tie-order-insensitive
properties the library guarantees: being a permutation, descending order,
and missing entries last. -/

/-- Sort key of a value: `nan` below `-inf` below the finite values below
`+inf`.  (The position of `nan` is irrelevant: missing entries are removed
before sorting.) -/
def pyfKey : PyFloat → WithBot (WithBot (WithTop ℚ))
  | .nan => ⊥
  | .inf true => ((⊥ : WithBot (WithTop ℚ)) : WithBot (WithBot (WithTop ℚ)))
  | .inf false => (((⊤ : WithTop ℚ) : WithBot (WithTop ℚ)) : WithBot (WithBot (WithTop ℚ)))
  | .finite q => (((q : WithTop ℚ) : WithBot (WithTop ℚ)) : WithBot (WithBot (WithTop ℚ)))

/-- Strict comparison of two cell values by `pyfKey`. -/
def pyfLt (a b : PyFloat) : Bool :=
  decide (pyfKey a < pyfKey b)

/-- Model of `pd.isna` on a coerced cell: only the missing marker is missing. -/
def pyfIsNa : PyFloat → Bool
  | .nan => true
  | _ => false

/-- Insertion into an ascending-sorted list of (ISO, value) pairs: the new
element goes before the first element not strictly below it. -/
def insertVal (x : String × PyFloat) : List (String × PyFloat) → List (String × PyFloat)
  | [] => [x]
  | y :: ys => if pyfLt y.2 x.2 then y :: insertVal x ys else x :: y :: ys

/-- Ascending insertion sort by value: the model of numpy's argsort on the
non-missing entries.  Its tie order (stable) is one concrete refinement of
numpy's unstable default sort — see the section comment; the claims only
use that the result is an ascending permutation of the input. -/
def sortValsAsc : List (String × PyFloat) → List (String × PyFloat)
  | [] => []
  | x :: xs => insertVal x (sortValsAsc xs)

/-- Model of `Series.sort_values(ascending=False)`: missing entries removed,
the rest sorted ascending and reversed, missing entries appended last in
original order.  The library fixes this result only up to the relative
order of equal values (see the section comment). -/
def sort_values_desc (pairs : List (String × PyFloat)) : List (String × PyFloat) :=
  (sortValsAsc (pairs.filter (fun p => !pyfIsNa p.2))).reverse
    ++ pairs.filter (fun p => pyfIsNa p.2)

namespace WEO

/-- Embedding of `gdp_usd(year)` (weo.py lines 99-104; the Python default is
`year=2018`): the GDP/U.S.-dollar extraction, indexed at the single
requested year (partial string indexing on the date row labels — `KeyError`
if the year matches no row), transposed to an ISO-indexed column and sorted
descending by value. -/
def gdp_usd (w : WEO) (year : Nat) : Except WeoError (List (String × PyFloat)) :=
  match w.get "Gross domestic product, current prices" "U.S. dollars" with
  | .error e => .error e
  | .ok s =>
    match (List.range s.index.length).filter (fun i => s.index.getD i 0 == year) with
    | [] => .error (.keyError (toString year))
    | i :: _ => .ok (sort_values_desc (s.columns.zip (s.values.getD i [])))

end WEO

/-! ## Concrete tables used by the witnesses and counterexamples -/

/-- The 45 year-column headers `"1980"` .. `"2024"` of a current-vintage
source file. -/
def yearHeaders : List String :=
  (List.range 45).map (fun k => toString (1980 + k))

/-- A list of 45 cells all holding the number 5. -/
def cells45 : List Cell :=
  (List.range 45).map (fun _ => Cell.num 5)

/-- A GDP row for the United States. -/
def rowUSA : Row :=
  ⟨"111", "USA", some "United States",
   "Gross domestic product, current prices", "U.S. dollars", cells45⟩

/-- A minimal well-formed table: 45 year columns, one GDP row. -/
def W45 : WEO :=
  ⟨yearHeaders, [rowUSA]⟩

/-- The series `get` extracts from `W45`. -/
def S45 : Series :=
  ⟨(List.range 45).map (fun k => 1980 + k), ["USA"],
   (List.range 45).map (fun _ => [PyFloat.finite 5])⟩

/-- A footer row as found at the bottom of the WEO file: country missing. -/
def rowFoot : Row :=
  ⟨"", "", none, "", "", []⟩

/-- A table whose raw frame still contains a footer row with a missing
country. -/
def Wfoot : WEO :=
  ⟨yearHeaders, [rowUSA, rowFoot]⟩

/-- A table with a single year column (e.g. a truncated export). -/
def W1y : WEO :=
  ⟨["1980"], [⟨"111", "USA", some "United States", "S", "U", [Cell.num 1]⟩]⟩

/-- A table containing a row whose subject descriptor is the empty string,
next to an ordinary row. -/
def Wes : WEO :=
  ⟨yearHeaders,
   [⟨"1", "AAA", some "Aland", "", "A", cells45⟩,
    ⟨"2", "BBB", some "Bland", "S", "B", cells45⟩]⟩

/-- Two GDP rows with equal values in every year: a tie for `gdp_usd`. -/
def W7 : WEO :=
  ⟨yearHeaders,
   [⟨"1", "AAA", some "Aland",
     "Gross domestic product, current prices", "U.S. dollars", cells45⟩,
    ⟨"2", "BBB", some "Bland",
     "Gross domestic product, current prices", "U.S. dollars", cells45⟩]⟩

/-- A table whose single country name contains `'ß'`. -/
def W8 : WEO :=
  ⟨yearHeaders,
   [⟨"134", "DEU", some "Großbritannien",
     "Gross domestic product, current prices", "U.S. dollars", cells45⟩]⟩

example : W45.years.length = 45 := by decide
example : W45.get "Gross domestic product, current prices" "U.S. dollars" = .ok S45 := by decide
example : W45.get "Gross domestic product, current prices" "Percent" =
    .error (.invalidUnit ["U.S. dollars"] "Percent") := by decide
example : W1y.get "S" "U" = .error (.lengthMismatch 1 45) := by decide
example : Wfoot.countries_df =
    [⟨"111", "USA", some "United States"⟩, ⟨"", "", none⟩] := by decide
example : W45.iso_code "Atlantis" = .error .indexOutOfBounds := by decide
example : W45.iso_code "united" = .ok "USA" := by decide
example : Wfoot.find_countries "united" = .error .attributeError := by decide
example : W7.gdp_usd 2018 =
    .ok [("BBB", .finite 5), ("AAA", .finite 5)] := by decide
example : W7.gdp_usd 3000 = .error (.keyError "3000") := by decide
example : W8.find_countries "ß" = .ok [⟨"134", "DEU", some "Großbritannien"⟩] := by decide
example : W8.find_countries (pyUpper "ß") = .ok [] := by decide
example : Wes.«variables» = ["", "S"] := by decide
example : Wes.units (some "") = ["A", "B"] := by decide
example : Wes.get "" "B" = .error (.invalidUnit ["A"] "B") := by decide

/-! ## Helper lemmas -/

theorem toList_mk (l : List Char) : (String.mk l).toList = l := rfl

theorem toNat_ofNat_valid {n : Nat} (h : n < 55296) : (Char.ofNat n).toNat = n := by
  rw [Char.ofNat, dif_pos (Or.inl h)]
  rfl

theorem pyLowerChar_idem (c : Char) : pyLowerChar (pyLowerChar c) = pyLowerChar c := by
  unfold pyLowerChar
  by_cases h : 65 ≤ c.toNat ∧ c.toNat ≤ 90
  · rw [if_pos h]
    have ht : (Char.ofNat (c.toNat + 32)).toNat = c.toNat + 32 :=
      toNat_ofNat_valid (by omega)
    rw [if_neg (by rw [ht]; omega)]
  · rw [if_neg h, if_neg h]

theorem pyLower_idem (s : String) : pyLower (pyLower s) = pyLower s := by
  simp only [pyLower, toList_mk, List.map_map]
  exact congrArg String.mk
    (List.map_congr_left (fun c _ => pyLowerChar_idem c))

theorem mem_of_mem_dedupAux [DecidableEq α] {x : α} :
    ∀ {l seen : List α}, x ∈ dedupAux l seen → x ∈ l := by
  intro l
  induction l with
  | nil => intro seen h; simp [dedupAux] at h
  | cons y ys ih =>
    intro seen h
    unfold dedupAux at h
    by_cases hy : y ∈ seen
    · rw [if_pos hy] at h
      exact List.mem_cons_of_mem y (ih h)
    · rw [if_neg hy] at h
      rcases List.mem_cons.mp h with rfl | h'
      · exact List.mem_cons_self x ys
      · exact List.mem_cons_of_mem y (ih h')

theorem mem_of_mem_dedupFirst [DecidableEq α] {x : α} {l : List α}
    (h : x ∈ dedupFirst l) : x ∈ l :=
  mem_of_mem_dedupAux h

theorem dedupFirst_ne_nil [DecidableEq α] {l : List α} (h : l ≠ []) :
    dedupFirst l ≠ [] := by
  cases l with
  | nil => exact absurd rfl h
  | cons x xs => simp [dedupFirst, dedupAux]

theorem pyfLt_asymm (a b : PyFloat) (h : pyfLt a b = true) : pyfLt b a = false := by
  simp only [pyfLt, decide_eq_true_eq, decide_eq_false_iff_not] at h ⊢
  exact lt_asymm h

theorem pyfLt_negtrans (a b c : PyFloat) (h1 : pyfLt b a = false)
    (h2 : pyfLt c b = false) : pyfLt c a = false := by
  simp only [pyfLt, decide_eq_false_iff_not, not_lt] at h1 h2 ⊢
  exact le_trans h1 h2

theorem insertVal_perm (x : String × PyFloat) (l : List (String × PyFloat)) :
    (insertVal x l).Perm (x :: l) := by
  induction l with
  | nil => exact List.Perm.refl _
  | cons y ys ih =>
    unfold insertVal
    by_cases h : pyfLt y.2 x.2 = true
    · rw [if_pos h]
      exact (ih.cons y).trans (List.Perm.swap x y ys)
    · rw [if_neg h]

theorem sortValsAsc_perm (l : List (String × PyFloat)) :
    (sortValsAsc l).Perm l := by
  induction l with
  | nil => exact List.Perm.refl _
  | cons x xs ih =>
    exact (insertVal_perm x (sortValsAsc xs)).trans (ih.cons x)

theorem pairwise_insertVal {x : String × PyFloat} {l : List (String × PyFloat)}
    (h : l.Pairwise (fun a b => pyfLt b.2 a.2 = false)) :
    (insertVal x l).Pairwise (fun a b => pyfLt b.2 a.2 = false) := by
  induction l with
  | nil => simp [insertVal]
  | cons y ys ih =>
    rcases List.pairwise_cons.mp h with ⟨hy, hys⟩
    unfold insertVal
    by_cases hlt : pyfLt y.2 x.2 = true
    · rw [if_pos hlt]
      refine List.pairwise_cons.mpr ⟨?_, ih hys⟩
      intro z hz
      rcases List.mem_cons.mp ((insertVal_perm x ys).mem_iff.mp hz) with rfl | hz'
      · exact pyfLt_asymm _ _ hlt
      · exact hy z hz'
    · rw [if_neg hlt]
      have hxy : pyfLt y.2 x.2 = false := Bool.eq_false_iff.mpr hlt
      refine List.pairwise_cons.mpr ⟨?_, h⟩
      intro z hz
      rcases List.mem_cons.mp hz with rfl | hz'
      · exact hxy
      · exact pyfLt_negtrans _ _ _ hxy (hy z hz')

theorem pairwise_sortValsAsc (l : List (String × PyFloat)) :
    (sortValsAsc l).Pairwise (fun a b => pyfLt b.2 a.2 = false) := by
  induction l with
  | nil => simp [sortValsAsc]
  | cons x xs ih => exact pairwise_insertVal ih

theorem filter_split_perm (p : α → Bool) (l : List α) :
    (l.filter p ++ l.filter (fun a => !p a)).Perm l := by
  induction l with
  | nil => simp
  | cons x xs ih =>
    by_cases h : p x = true
    · simpa [List.filter_cons, h] using ih.cons x
    · have h' : p x = false := Bool.eq_false_iff.mpr h
      simp only [List.filter_cons, h', Bool.not_false, if_neg, cond_false, cond_true]
      exact List.perm_middle.trans (ih.cons x)

theorem sort_values_desc_perm (pairs : List (String × PyFloat)) :
    (sort_values_desc pairs).Perm pairs := by
  have base := filter_split_perm (fun p => !pyfIsNa p.2) pairs
  have h2 : pairs.filter (fun a => !!pyfIsNa a.2) = pairs.filter (fun p => pyfIsNa p.2) := by
    simp only [Bool.not_not]
  rw [h2] at base
  exact (((List.reverse_perm _).trans (sortValsAsc_perm _)).append (List.Perm.refl _)).trans base

theorem pairwise_sort_values_desc (pairs : List (String × PyFloat)) :
    (sort_values_desc pairs).Pairwise
      (fun a b => pyfIsNa a.2 = true ∨ pyfIsNa b.2 = true ∨ pyfLt a.2 b.2 = false) := by
  unfold sort_values_desc
  refine List.pairwise_append.mpr ⟨?_, ?_, ?_⟩
  · have hs := pairwise_sortValsAsc (pairs.filter (fun p => !pyfIsNa p.2))
    have hrev : (sortValsAsc (pairs.filter (fun p => !pyfIsNa p.2))).reverse.Pairwise
        (fun a b => pyfLt a.2 b.2 = false) :=
      List.pairwise_reverse.mpr hs
    exact hrev.imp (fun h => Or.inr (Or.inr h))
  · refine List.pairwise_of_forall_mem_list ?_
    intro a ha _ _
    exact Or.inl (List.mem_filter.mp ha).2
  · intro a _ b hb
    exact Or.inr (Or.inl (List.mem_filter.mp hb).2)

theorem mk_toList (s : String) : String.mk s.toList = s := by
  cases s
  rfl

theorem stripCommas_of_no_comma {s : String} (hc : ',' ∉ s.toList) :
    stripCommas s = s := by
  unfold stripCommas
  have hf : s.toList.filter (fun c => decide (¬ c = ',')) = s.toList := by
    refine List.filter_eq_self.mpr ?_
    intro a ha
    refine decide_eq_true ?_
    intro heq
    subst heq
    exact hc ha
  rw [hf, mk_toList]

/-- Success shape of `get`: a returned series records that the unit was
valid, the table had the expected 45 year columns, and the series is the
pivot of the subject+unit row subset. -/
theorem get_ok_eq {w : WEO} {i u : String} {s : Series} (h : w.get i u = .ok s) :
    u ∈ WEO.unitsOf (w.by_subject (.one i)) ∧
    w.years.length = LATEST_YEAR - 1980 + 1 ∧
    s = { index := (List.range (LATEST_YEAR - 1980 + 1)).map (fun k => 1980 + k),
          columns := ((w.by_subject (.one i)).filter (fun r => r.unitsCol == u)).map
            (fun r => r.iso),
          values := (List.range w.years.length).map
            (fun j => ((w.by_subject (.one i)).filter (fun r => r.unitsCol == u)).map
              (fun r => convert ((w.yearCells r).getD j Cell.na))) } := by
  unfold WEO.get at h
  by_cases hu : u ∉ WEO.unitsOf (w.by_subject (.one i))
  · rw [if_pos hu] at h
    cases h
  · rw [if_neg hu] at h
    by_cases hny : w.years.length = LATEST_YEAR - 1980 + 1
    · rw [if_pos hny] at h
      injection h with h'
      exact ⟨not_not.mp hu, hny, h'.symm⟩
    · rw [if_neg hny] at h
      cases h

/-! ## The claims -/

/-- C1: for every indicator string and unit string, if the unit is not among
the units observed for that indicator in the filtered table, `get` fails
with the invalid-unit `ValueError` whose payload enumerates exactly the unit
set valid for that indicator; it neither returns a series nor fails any
other way. -/
theorem C1_get_invalid_unit (w : WEO) (indicator unit : String)
    (h : unit ∉ WEO.unitsOf (w.by_subject (.one indicator))) :
    w.get indicator unit
      = .error (.invalidUnit (WEO.unitsOf (w.by_subject (.one indicator))) unit) := by
  unfold WEO.get
  rw [if_pos h]

/-- Witness for C1: on `W45`, requesting GDP in unit `"Percent"` fails with
the invalid-unit error listing the one valid unit. -/
theorem C1_witness :
    "Percent" ∉ WEO.unitsOf (W45.by_subject (.one "Gross domestic product, current prices")) ∧
    W45.get "Gross domestic product, current prices" "Percent"
      = .error (.invalidUnit ["U.S. dollars"] "Percent") :=
  ⟨by decide,
   (C1_get_invalid_unit W45 "Gross domestic product, current prices" "Percent"
     (by decide)).trans (by decide)⟩

/-- C2 counterexample: on a table whose raw frame keeps a footer row with a
missing country, `countries_df` (built from the raw frame, not the filtered
one) retains that row, while the filtered frame drops it. -/
theorem C2_counterexample :
    Wfoot.countries_df.any (fun r => r.country.isNone) = true ∧
    Wfoot.df.all (fun r => r.country.isSome) = true := by decide

/-- C2 (amended): every indicator listed by `variables()` and every column
of a `get` result comes from a row with a non-missing country; `countries()`
however is computed from the raw table and may retain missing-country
rows. -/
theorem C2_filtered_views (w : WEO) (i u : String) (s : Series)
    (h : w.get i u = .ok s) :
    (∀ v ∈ w.«variables», ∃ r ∈ w.rows, r.country.isSome = true ∧ r.subject = v) ∧
    (∀ c ∈ s.columns, ∃ r ∈ w.rows, r.country.isSome = true ∧ r.iso = c) := by
  obtain ⟨_, _, hs⟩ := get_ok_eq h
  subst hs
  constructor
  · intro v hv
    obtain ⟨r, hrdf, hrs⟩ := List.mem_map.mp (mem_of_mem_dedupFirst hv)
    obtain ⟨hrrows, hrsome⟩ := List.mem_filter.mp hrdf
    exact ⟨r, hrrows, hrsome, hrs⟩
  · intro c hc
    obtain ⟨r, hr, hriso⟩ := List.mem_map.mp hc
    obtain ⟨hr2, _⟩ := List.mem_filter.mp hr
    obtain ⟨hrdf, _⟩ := List.mem_filter.mp hr2
    obtain ⟨hrrows, hrsome⟩ := List.mem_filter.mp hrdf
    exact ⟨r, hrrows, hrsome, hriso⟩

/-- Witness for C2 (amended) at the concrete table `W45`. -/
theorem C2_witness :
    W45.get "Gross domestic product, current prices" "U.S. dollars" = .ok S45 ∧
    ((∀ v ∈ W45.«variables», ∃ r ∈ W45.rows, r.country.isSome = true ∧ r.subject = v) ∧
     (∀ c ∈ S45.columns, ∃ r ∈ W45.rows, r.country.isSome = true ∧ r.iso = c)) :=
  ⟨by decide,
   C2_filtered_views W45 "Gross domestic product, current prices" "U.S. dollars"
     S45 (by decide)⟩

/-- C3: evaluation at the failing input.  With the only country being
`"United States"`, the lookup `iso_code("Atlantis")` finds zero matches and
fails with the positional `IndexError` of `.iloc[0]` — not with an explicit
country-not-found error, contrary to the claim. -/
theorem C3_iso_code_index_error :
    W45.find_countries "Atlantis" = .ok [] ∧
    W45.iso_code "Atlantis" = .error .indexOutOfBounds ∧
    W45.iso_code "united" = .ok "USA" := by decide

/-- C4: cell coercion is total — `"1,234.5"` parses to the rational
`1234.5` after the commas are stripped, `"n/a"` becomes the missing-value
marker, and so does every string whose de-comma-ed form fails the float
parse (the `ValueError` is swallowed, never raised). -/
theorem C4_convert_total :
    convert (Cell.str "1,234.5") = PyFloat.finite (mkRat 2469 2) ∧
    (mkRat 2469 2 : ℚ) = 1234.5 ∧
    convert (Cell.str "n/a") = PyFloat.nan ∧
    ∀ s : String, pyFloat (stripCommas s) = none → convert (Cell.str s) = PyFloat.nan := by
  refine ⟨by decide, by norm_num [Rat.mkRat_eq_div], by decide, ?_⟩
  intro s hs
  by_cases hm : ',' ∈ s.data
  · simp [convert, hm, hs]
  · have hs' : pyFloat s = none := by
      rw [← stripCommas_of_no_comma hm]
      exact hs
    simp [convert, hm, hs']

/-- Witness for C4: `"x1.5"` does not parse as a float and coerces to the
missing-value marker. -/
theorem C4_witness :
    pyFloat (stripCommas "x1.5") = none ∧ convert (Cell.str "x1.5") = PyFloat.nan :=
  ⟨by decide, C4_convert_total.2.2.2 "x1.5" (by decide)⟩

/-- C5: a series returned by `get` has a row axis of length
`LATEST_YEAR - 1980 + 1` (one year-end entry per year from 1980 through the
latest year), and its column set is exactly the ISO codes of the filtered
rows matching the indicator and unit. -/
theorem C5_get_shape (w : WEO) (i u : String) (s : Series)
    (h : w.get i u = .ok s) :
    s.index.length = LATEST_YEAR - 1980 + 1 ∧
    s.index = (List.range (LATEST_YEAR - 1980 + 1)).map (fun k => 1980 + k) ∧
    ∀ c, c ∈ s.columns ↔ ∃ r ∈ w.df, r.subject = i ∧ r.unitsCol = u ∧ r.iso = c := by
  obtain ⟨_, _, hs⟩ := get_ok_eq h
  subst hs
  refine ⟨by simp, rfl, ?_⟩
  intro c
  constructor
  · intro hc
    obtain ⟨r, hr, hriso⟩ := List.mem_map.mp hc
    obtain ⟨hr2, hru⟩ := List.mem_filter.mp hr
    obtain ⟨hrdf, hrs⟩ := List.mem_filter.mp hr2
    refine ⟨r, hrdf, ?_, beq_iff_eq.mp hru, hriso⟩
    simpa [WEO.subjectsList] using of_decide_eq_true hrs
  · rintro ⟨r, hrdf, hsub, hun, rfl⟩
    refine List.mem_map.mpr ⟨r, ?_, rfl⟩
    refine List.mem_filter.mpr ⟨List.mem_filter.mpr ⟨hrdf, ?_⟩, beq_iff_eq.mpr hun⟩
    exact decide_eq_true (by simp [WEO.subjectsList, hsub])

/-- Witness for C5 at the concrete table `W45` and its series `S45`. -/
theorem C5_witness :
    W45.get "Gross domestic product, current prices" "U.S. dollars" = .ok S45 ∧
    (S45.index.length = LATEST_YEAR - 1980 + 1 ∧
     S45.index = (List.range (LATEST_YEAR - 1980 + 1)).map (fun k => 1980 + k) ∧
     ∀ c, c ∈ S45.columns ↔
       ∃ r ∈ W45.df, r.subject = "Gross domestic product, current prices" ∧
         r.unitsCol = "U.S. dollars" ∧ r.iso = c) :=
  ⟨by decide,
   C5_get_shape W45 "Gross domestic product, current prices" "U.S. dollars"
     S45 (by decide)⟩

/-- C6 counterexample: the claim fails in two ways.  On a table with a
single year column, the indicator/unit pair listed by `variables()` and
`units()` still makes `get` raise the index-length mismatch.  On a
45-year-column table containing a row whose subject is the empty string,
`units("")` falls into the all-units branch (truthiness), and `get("", u)`
then rejects a unit that `units("")` listed. -/
theorem C6_counterexample :
    ("S" ∈ W1y.«variables» ∧ "U" ∈ W1y.units (some "S") ∧
      W1y.get "S" "U" = .error (.lengthMismatch 1 45)) ∧
    ("" ∈ Wes.«variables» ∧ "B" ∈ Wes.units (some "") ∧
      Wes.get "" "B" = .error (.invalidUnit ["A"] "B")) := by decide

/-- C6 (amended): for every non-empty indicator name listed by
`variables()`, on a table whose year-column count is exactly
`LATEST_YEAR - 1980 + 1`, `units(indicator)` is non-empty and `get`
succeeds on every unit it lists. -/
theorem C6_units_get_ok (w : WEO) (i : String)
    (hy : w.years.length = LATEST_YEAR - 1980 + 1)
    (hi : i ∈ w.«variables») (hne : i.isEmpty = false) :
    w.units (some i) ≠ [] ∧
    ∀ u ∈ w.units (some i), ∃ s, w.get i u = .ok s := by
  have hunits : w.units (some i) = WEO.unitsOf (w.by_subject (.one i)) := by
    simp [WEO.units, hne]
  obtain ⟨r, hrdf, hrs⟩ := List.mem_map.mp (mem_of_mem_dedupFirst hi)
  have hrbs : r ∈ w.by_subject (.one i) := by
    refine List.mem_filter.mpr ⟨hrdf, ?_⟩
    exact decide_eq_true (by simp [WEO.subjectsList, hrs])
  constructor
  · rw [hunits]
    exact dedupFirst_ne_nil
      (List.ne_nil_of_mem (List.mem_map_of_mem (fun r => r.unitsCol) hrbs))
  · intro u hu
    rw [hunits] at hu
    unfold WEO.get
    rw [if_neg (not_not.mpr hu), if_pos hy]
    exact ⟨_, rfl⟩

/-- Witness for C6 (amended) at the concrete table `W45`. -/
theorem C6_witness :
    W45.years.length = LATEST_YEAR - 1980 + 1 ∧
    "Gross domestic product, current prices" ∈ W45.«variables» ∧
    ("Gross domestic product, current prices").isEmpty = false ∧
    (W45.units (some "Gross domestic product, current prices") ≠ [] ∧
     ∀ u ∈ W45.units (some "Gross domestic product, current prices"),
       ∃ s, W45.get "Gross domestic product, current prices" u = .ok s) :=
  ⟨by decide, by decide, by decide,
   C6_units_get_ok W45 "Gross domestic product, current prices"
     (by decide) (by decide) (by decide)⟩

/-- C7 counterexample: two GDP rows (`AAA` before `BBB` in the source) carry
equal values; `gdp_usd` returns them in reverse of their original order, so
ties do not keep their original (stable) relative order.  (At two elements
numpy's quicksort is in its insertion-sort regime, where the model is exact:
the ascending argsort is stable and pandas reverses it.)  A year outside the
1980..2024 window fails with a `KeyError` rather than returning values. -/
theorem C7_counterexample :
    W7.rows.map (fun r => r.iso) = ["AAA", "BBB"] ∧
    W7.gdp_usd 2018 = .ok [("BBB", PyFloat.finite 5), ("AAA", PyFloat.finite 5)] ∧
    W7.gdp_usd 3000 = .error (.keyError "3000") := by decide

/-- C7 (amended): a result of `gdp_usd(year)` is a permutation of that
single year's row of the GDP/U.S.-dollar extraction as (ISO, value) pairs,
in descending order of value with missing values last; the relative order
of entries with equal values is not preserved and — numpy's default sort
being unstable — not specified by the library. -/
theorem C7_gdp_desc (w : WEO) (year : Nat) (l : List (String × PyFloat))
    (h : w.gdp_usd year = .ok l) :
    l.Pairwise (fun a b => pyfIsNa a.2 = true ∨ pyfIsNa b.2 = true ∨ pyfLt a.2 b.2 = false) ∧
    ∃ s i, w.get "Gross domestic product, current prices" "U.S. dollars" = .ok s ∧
      i < s.index.length ∧ s.index.getD i 0 = year ∧
      l.Perm (s.columns.zip (s.values.getD i [])) := by
  unfold WEO.gdp_usd at h
  cases hget : w.get "Gross domestic product, current prices" "U.S. dollars" with
  | error e =>
    simp only [hget] at h
    exact absurd h (by simp)
  | ok s =>
    simp only [hget] at h
    cases hf : (List.range s.index.length).filter (fun j => s.index.getD j 0 == year) with
    | nil =>
      simp only [hf] at h
      exact absurd h (by simp)
    | cons i is =>
      simp only [hf] at h
      injection h with h'
      subst h'
      have hi : i ∈ (List.range s.index.length).filter
          (fun j => s.index.getD j 0 == year) := by
        rw [hf]
        exact List.mem_cons_self i is
      obtain ⟨hir, hiy⟩ := List.mem_filter.mp hi
      exact ⟨pairwise_sort_values_desc _,
        s, i, rfl, List.mem_range.mp hir, beq_iff_eq.mp hiy,
        sort_values_desc_perm _⟩

/-- Witness for C7 (amended) at the concrete tie table `W7`. -/
theorem C7_witness :
    W7.gdp_usd 2018 = .ok [("BBB", PyFloat.finite 5), ("AAA", PyFloat.finite 5)] ∧
    (List.Pairwise
      (fun a b => pyfIsNa a.2 = true ∨ pyfIsNa b.2 = true ∨ pyfLt a.2 b.2 = false)
      [("BBB", PyFloat.finite 5), ("AAA", PyFloat.finite 5)] ∧
     ∃ s i, W7.get "Gross domestic product, current prices" "U.S. dollars" = .ok s ∧
       i < s.index.length ∧ s.index.getD i 0 = 2018 ∧
       List.Perm [("BBB", PyFloat.finite 5), ("AAA", PyFloat.finite 5)]
         (s.columns.zip (s.values.getD i []))) :=
  ⟨by decide,
   C7_gdp_desc W7 2018 [("BBB", PyFloat.finite 5), ("AAA", PyFloat.finite 5)]
     (by decide)⟩

/-- C8 counterexample: `find_countries` is not invariant under upper-casing
of every query.  `"ß".upper() = "SS"`, whose lower-case form `"ss"` no
longer occurs in `"großbritannien"`, so the query `"ß"` matches and the
query `"SS"` does not. -/
theorem C8_counterexample :
    pyUpper "ß" = "SS" ∧
    W8.find_countries "ß" = .ok [⟨"134", "DEU", some "Großbritannien"⟩] ∧
    W8.find_countries (pyUpper "ß") = .ok [] ∧
    W8.find_countries "ß" ≠ W8.find_countries (pyUpper "ß") := by decide

/-- C8 (amended): `find_countries` is invariant under lower-casing the
query; it is invariant under upper-casing whenever lower-casing the
upper-cased query gives back the lower-cased query — which holds for every
ASCII query, but fails for characters such as `'ß'` whose uppercase form
expands. -/
theorem C8_case_insensitive (w : WEO) (q : String) :
    w.find_countries (pyLower q) = w.find_countries q ∧
    (pyLower (pyUpper q) = pyLower q →
      w.find_countries (pyUpper q) = w.find_countries q) := by
  constructor
  · unfold WEO.find_countries
    rw [pyLower_idem]
  · intro hq
    unfold WEO.find_countries
    rw [hq]

/-- Witness for C8 (amended): on `W45`, the queries `"UNITED"`, `"united"`
and `pyUpper "UNITED"` all agree. -/
theorem C8_witness :
    (W45.find_countries (pyLower "UNITED") = W45.find_countries "UNITED" ∧
     (pyLower (pyUpper "UNITED") = pyLower "UNITED" →
       W45.find_countries (pyUpper "UNITED") = W45.find_countries "UNITED")) ∧
    W45.find_countries (pyUpper "UNITED") = W45.find_countries "UNITED" :=
  ⟨C8_case_insensitive W45 "UNITED",
   (C8_case_insensitive W45 "UNITED").2 (by decide)⟩

/-- C9: comma stripping is not restricted to group-separator positions —
`convert` removes every comma of a textual cell before the float parse
(`"1,2,3"` coerces to `123`), and in general coincides with parsing the
fully de-comma-ed string. -/
theorem C9_comma_stripping :
    convert (Cell.str "1,2,3") = PyFloat.finite 123 ∧
    ∀ s : String, convert (Cell.str s) = (pyFloat (stripCommas s)).getD PyFloat.nan := by
  refine ⟨by decide, ?_⟩
  intro s
  by_cases hm : ',' ∈ s.data
  · cases hp : pyFloat (stripCommas s) <;> simp [convert, hm, hp]
  · rw [stripCommas_of_no_comma hm]
    cases hp : pyFloat s <;> simp [convert, hm, hp]

/-- C10: because the `subject` argument of `units` is tested for
truthiness, the empty string behaves exactly like passing no indicator at
all: the result is the unit set of the whole filtered table. -/
theorem C10_units_empty_string (w : WEO) :
    w.units (some "") = w.units none ∧ w.units none = WEO.unitsOf w.df := by
  constructor
  · rfl
  · rfl
